import Mathlib

/-!
Shallow embedding of
`airbyte-ci/connectors/pipelines/pipelines/airbyte_ci/connectors/pipeline.py`.

The module has three functions:
* `context_to_step_result` — maps a context's terminal state to a step result;
* `run_report_complete_pipeline` — classifies every context and builds/saves
  one completion report;
* `run_connectors_pipelines` — starts the shared dockerd service, fans out one
  task per context through an anyio task group (each task receiving a
  concurrency semaphore chosen per connector language), stops the service,
  runs the report pipeline, and returns the contexts.

The async fan-out is modelled sequentially: each run produces an event trace
(service start, one launch per task, service stop, report save) alongside an
`Except` result; an exception raised in Python becomes `Except.error`.
-/

namespace AirbytePipeline

/-- Modelled from the spec: the WorkUnit terminal state, one of
\x7bPending, Successful, Failure, Error\x7d (`ContextState` lives in
`pipelines.consts`, which is not part of the extracted source). -/
inductive ContextState
  | pending
  | successful
  | failure
  | error
  deriving DecidableEq, Repr

/-- Modelled from the spec: the binary ResultRecord outcome
(`StepStatus` lives in `pipelines.models.steps`, not in the extracted source). -/
inductive StepStatus
  | success
  | failure
  deriving DecidableEq, Repr

/-- Modelled from the spec: the connector's implementation language, the class
key used to select a concurrency gate (`ConnectorLanguage` lives in
`connector_ops.utils`, not in the extracted source). Java is the one language
the source maps to a dedicated semaphore. -/
inductive ConnectorLanguage
  | java
  | python
  | low_code
  deriving DecidableEq, Repr

/-- A concurrency gate. In Python both branches of
`CONNECTOR_LANGUAGE_TO_FORCED_CONCURRENCY_MAPPING.get(lang, default)` return an
`anyio.Semaphore`; the constructor tag records object identity: `forced` is a
dedicated semaphore from the module-level mapping, `shared` is the
per-batch `default_connectors_semaphore`. -/
inductive Gate
  | forced (lang : ConnectorLanguage) (capacity : Nat)
  | shared (capacity : Nat)
  deriving DecidableEq, Repr

/-- The shared dockerd service handle: its only observable configuration is
whether it was built with the DOCKER_HUB secrets (lines 103-108). -/
structure ServiceConfig where
  secrets : Option (String × String)
  deriving DecidableEq, Repr

/-- The connector's observable facets used by this module: its language
(class key) and its technical name (identity label). -/
structure ConnectorInfo where
  language : ConnectorLanguage
  technical_name : String
  deriving DecidableEq, Repr

/-- The caller-visible facets of a `ConnectorContext` that this module reads or
writes. `report_output_base` models the context's `report_output_prefix`
attribute (read at line 67). `dagger_client` models the per-context dagger
client assigned at line 126 (observable: the pipeline label it was built with);
`dockerd_service` models the handle assigned at line 127. -/
structure ConnectorContext where
  state : ContextState
  connector : ConnectorInfo
  report_output_base : String
  pipeline_name : String
  docker_hub_username : Option String
  docker_hub_password : Option String
  dagger_client : Option String
  dockerd_service : Option ServiceConfig
  deriving DecidableEq, Repr

/-- Python truthiness of an optional string: `None` and `""` are falsy. -/
def truthy : Option String → Bool
  | none => false
  | some s => s ≠ ""

/-- A step result: the status together with the context it was produced from. -/
structure StepResult where
  status : StepStatus
  context : ConnectorContext
  deriving DecidableEq, Repr

/-- Modelled from the spec: `NoOpStep(context, status).run()`
(`pipelines.airbyte_ci.steps.no_op`, not in the extracted source) produces a
`StepResult` pairing the context with the given status. -/
def noOpStepRun (context : ConnectorContext) (status : StepStatus) : StepResult :=
  { status := status, context := context }

/-- The completion report built at lines 73-78. -/
structure Report where
  name : String
  pipeline_context : ConnectorContext
  steps_results : List StepResult
  filename : String
  deriving DecidableEq, Repr

/-- Lines 31-35: Java connectors get a dedicated `anyio.Semaphore(1)`; no other
language is in the mapping. -/
def CONNECTOR_LANGUAGE_TO_FORCED_CONCURRENCY_MAPPING : ConnectorLanguage → Option Gate
  | ConnectorLanguage.java => some (Gate.forced ConnectorLanguage.java 1)
  | _ => none

/-- Line 131: `CONNECTOR_LANGUAGE_TO_FORCED_CONCURRENCY_MAPPING.get(language,
default_connectors_semaphore)`. -/
def gate_for (default_gate : Gate) (lang : ConnectorLanguage) : Gate :=
  (CONNECTOR_LANGUAGE_TO_FORCED_CONCURRENCY_MAPPING lang).getD default_gate

/-- Lines 38-48: map a context's terminal state to a step result, raising
`ValueError` on any unrecognized state. -/
def context_to_step_result (context : ConnectorContext) : Except String StepResult :=
  if context.state = ContextState.successful then
    Except.ok (noOpStepRun context StepStatus.success)
  else if context.state = ContextState.failure then
    Except.ok (noOpStepRun context StepStatus.failure)
  else if context.state = ContextState.error then
    Except.ok (noOpStepRun context StepStatus.failure)
  else
    Except.error "ValueError: could not convert context state to step status"

/-- Line 71: `[await context_to_step_result(context) for context in contexts]`,
sequential, propagating the first exception. -/
def map_step_results : List ConnectorContext → Except String (List StepResult)
  | [] => Except.ok []
  | c :: t =>
    match context_to_step_result c with
    | Except.error e => Except.error e
    | Except.ok r =>
      match map_step_results t with
      | Except.error e => Except.error e
      | Except.ok rs => Except.ok (r :: rs)

/-- Lines 53-80: build and save the completion report. Returns the context list
as left after the function's own mutation (line 68 repurposes the first
context's `pipeline_name`), and the saved report (`none` when the early return
at lines 61-62 fires). An exception from `context_to_step_result` propagates
before the `Report` is constructed. -/
def run_report_complete_pipeline (contexts : List ConnectorContext) :
    Except String (List ConnectorContext × Option Report) :=
  match contexts with
  | [] => Except.ok ([], none)
  | first_connector_context :: rest =>
    let pipeline_name := "Report upload " ++ first_connector_context.report_output_base
    let first' := { first_connector_context with pipeline_name := pipeline_name }
    match map_step_results (first' :: rest) with
    | Except.error e => Except.error e
    | Except.ok steps_results =>
      Except.ok (first' :: rest,
        some { name := pipeline_name
               pipeline_context := first'
               steps_results := steps_results
               filename := "complete" })

/-- Lines 100-108: the dockerd service is configured from the first context's
Docker Hub credentials; secrets are set only when both are truthy. -/
def dockerServiceConfig (first : ConnectorContext) : ServiceConfig :=
  if truthy first.docker_hub_username && truthy first.docker_hub_password then
    { secrets := some (first.docker_hub_username.getD "", first.docker_hub_password.getD "") }
  else
    { secrets := none }

/-- Lines 126-127: before `start_soon`, the loop assigns the context its own
dagger client (labelled `pipeline_name - technical_name`) and the shared
dockerd service handle. -/
def prepare_context (pipeline_name : String) (svc : ServiceConfig)
    (c : ConnectorContext) : ConnectorContext :=
  { c with
    dagger_client := some (pipeline_name ++ " - " ++ c.connector.technical_name)
    dockerd_service := some svc }

/-- The caller-supplied work function `connector_pipeline(context, semaphore,
*args)`: it mutates the context's state (modelled by returning the new terminal
state) or raises. -/
def WorkFn : Type :=
  ConnectorContext → Gate → List String → Except String ContextState

/-- One recorded `tg_connectors.start_soon(connector_pipeline, context, gate,
*args)` call (lines 128-133): the context as passed, the gate chosen for its
language, and the extra positional arguments. -/
structure Invocation where
  context : ConnectorContext
  gate : Gate
  extra_args : List String
  deriving DecidableEq, Repr

/-- Observable events of one `run_connectors_pipelines` run, in order. -/
inductive Event
  | serviceStart (cfg : ServiceConfig)
  | taskLaunch (inv : Invocation)
  | serviceStop
  | reportSave (r : Report)
  deriving DecidableEq, Repr

def is_start : Event → Bool
  | Event.serviceStart _ => true
  | _ => false

def is_stop : Event → Bool
  | Event.serviceStop => true
  | _ => false

def is_save : Event → Bool
  | Event.reportSave _ => true
  | _ => false

def launch_of : Event → Option Invocation
  | Event.taskLaunch inv => some inv
  | _ => none

/-- Running one task: the work function is called with the prepared context,
the gate for its language, and the extra args; on success the context's state
is the state the work function left it in. -/
def run_task (f : WorkFn) (default_gate : Gate) (args : List String)
    (c : ConnectorContext) : Except String ConnectorContext :=
  (f c (gate_for default_gate c.connector.language) args).map fun s => { c with state := s }

/-- The invocations the loop at lines 124-133 records, in input order. -/
def scheduled_invocations (pipeline_name : String) (concurrency : Nat)
    (args : List String) (first : ConnectorContext) (rest : List ConnectorContext) :
    List Invocation :=
  ((first :: rest).map (prepare_context pipeline_name (dockerServiceConfig first))).map
    fun c => { context := c
               gate := gate_for (Gate.shared concurrency) c.connector.language
               extra_args := args }

/-- Sequential model of the fan-out: each context's task runs; an exception
from any task propagates (the first in input order), otherwise all mutated
contexts are collected in input order. -/
def run_tasks (f : WorkFn) (default_gate : Gate) (args : List String) :
    List ConnectorContext → Except String (List ConnectorContext)
  | [] => Except.ok []
  | c :: t =>
    match run_task f default_gate args c with
    | Except.error e => Except.error e
    | Except.ok c' =>
      match run_tasks f default_gate args t with
      | Except.error e => Except.error e
      | Except.ok cs => Except.ok (c' :: cs)

/-- The join barrier of the task group: every task runs; the first exception
(in input order) propagates out of the `async with` block, otherwise all
mutated contexts are available. -/
def tasks_result (f : WorkFn) (pipeline_name : String) (concurrency : Nat)
    (args : List String) (first : ConnectorContext) (rest : List ConnectorContext) :
    Except String (List ConnectorContext) :=
  run_tasks f (Gate.shared concurrency) args
    ((first :: rest).map (prepare_context pipeline_name (dockerServiceConfig first)))

/-- Lines 83-142: the full batch run. Returns the Python return value (the
context list, or the propagated exception) together with the event trace.
`contexts[0]` at line 100 raises `IndexError` on an empty list. The
`await dockerd_service.stop()` at line 137 is straight-line code after the
task group, not a `finally`: a task exception skips it. -/
def run_connectors_pipelines (contexts : List ConnectorContext)
    (connector_pipeline : WorkFn) (pipeline_name : String) (concurrency : Nat)
    (args : List String) :
    Except String (List ConnectorContext) × List Event :=
  match contexts with
  | [] => (Except.error "IndexError: list index out of range", [])
  | first :: rest =>
    let dockerd_service := dockerServiceConfig first
    let startEvents :=
      Event.serviceStart dockerd_service ::
        (scheduled_invocations pipeline_name concurrency args first rest).map Event.taskLaunch
    match tasks_result connector_pipeline pipeline_name concurrency args first rest with
    | Except.error e => (Except.error e, startEvents)
    | Except.ok finished =>
      match run_report_complete_pipeline finished with
      | Except.error e => (Except.error e, startEvents ++ [Event.serviceStop])
      | Except.ok (contexts', oreport) =>
        (Except.ok contexts',
         startEvents ++ [Event.serviceStop] ++ (oreport.map Event.reportSave).toList)

/-- A terminal state the classifier recognizes (lines 39-46). -/
def recognized_state : ContextState → Bool
  | ContextState.successful => true
  | ContextState.failure => true
  | ContextState.error => true
  | _ => false

/-- The status the classifier assigns to a recognized terminal state
(lines 39-46): Successful to Success, Failure and Error to Failure. -/
def terminal_status : ContextState → StepStatus
  | ContextState.successful => StepStatus.success
  | _ => StepStatus.failure

/-! ### Helper lemmas -/

/-- An unrecognized terminal state makes the classifier raise. -/
theorem step_result_of_unrecognized (c : ConnectorContext)
    (h : recognized_state c.state = false) :
    context_to_step_result c =
      Except.error "ValueError: could not convert context state to step status" := by
  rcases c with ⟨s, co, ro, pn, u, pw, dc, ds⟩
  cases s <;> simp_all [context_to_step_result, recognized_state]

/-- A recognized terminal state classifies to `terminal_status`. -/
theorem step_result_of_recognized (c : ConnectorContext)
    (h : recognized_state c.state = true) :
    context_to_step_result c = Except.ok (noOpStepRun c (terminal_status c.state)) := by
  rcases c with ⟨s, co, ro, pn, u, pw, dc, ds⟩
  cases s <;> simp_all [context_to_step_result, recognized_state, terminal_status]

/-- If some context's state is unrecognized, the whole comprehension raises. -/
theorem map_step_results_eq_error (l : List ConnectorContext)
    (h : ∃ c ∈ l, recognized_state c.state = false) :
    map_step_results l =
      Except.error "ValueError: could not convert context state to step status" := by
  induction l with
  | nil => simp at h
  | cons c t ih =>
    rcases h with ⟨c', hmem, hbad⟩
    rcases List.mem_cons.mp hmem with rfl | hmem'
    · simp [map_step_results, step_result_of_unrecognized c' hbad]
    · by_cases hc : recognized_state c.state
      · simp [map_step_results, step_result_of_recognized c hc, ih ⟨c', hmem', hbad⟩]
      · simp [map_step_results,
          step_result_of_unrecognized c (Bool.not_eq_true _ ▸ hc)]

/-- If every context's state is recognized, the comprehension yields one step
result per context, in order, pairing each context with its classified
status. -/
theorem map_step_results_eq_ok (l : List ConnectorContext)
    (h : ∀ c ∈ l, recognized_state c.state = true) :
    map_step_results l =
      Except.ok (l.map fun c => noOpStepRun c (terminal_status c.state)) := by
  induction l with
  | nil => rfl
  | cons c t ih =>
    simp [map_step_results, step_result_of_recognized c (h c (by simp)),
      ih fun c' hc' => h c' (by simp [hc'])]

/-! ### C1 -/

/-- A work function for concrete runs: it always reports success. -/
def okPipeline : WorkFn := fun _ _ _ => Except.ok ContextState.successful

/-- C1 counterexample: with an empty context list, `run_connectors_pipelines`
does not return the empty list — reading `contexts[0]` (line 100) raises
IndexError. The trace is empty, so indeed no service start and no report. -/
theorem run_connectors_pipelines_empty_raises :
    run_connectors_pipelines [] okPipeline "test" 5 [] =
      (Except.error "IndexError: list index out of range", []) ∧
    (run_connectors_pipelines [] okPipeline "test" 5 []).1 ≠ Except.ok [] :=
  ⟨rfl, fun h => Except.noConfusion h⟩

/-- C1 (amended): on an empty WorkUnit list no service is started, no task is
launched and no report is produced (the event trace is empty), but the call
raises an IndexError when reading the first context's credentials instead of
returning the empty list. -/
theorem run_connectors_pipelines_empty_behavior (f : WorkFn)
    (pipeline_name : String) (concurrency : Nat) (args : List String) :
    run_connectors_pipelines [] f pipeline_name concurrency args =
      (Except.error "IndexError: list index out of range", []) := rfl

/-! ### C2 -/

/-- C2: the classifier maps Successful to outcome Success, Failure and Error
both to outcome Failure, and raises ValueError on every other terminal state
(here: Pending, the only other state). -/
theorem context_to_step_result_classification (c : ConnectorContext) :
    (c.state = ContextState.successful →
      context_to_step_result c = Except.ok (noOpStepRun c StepStatus.success)) ∧
    (c.state = ContextState.failure →
      context_to_step_result c = Except.ok (noOpStepRun c StepStatus.failure)) ∧
    (c.state = ContextState.error →
      context_to_step_result c = Except.ok (noOpStepRun c StepStatus.failure)) ∧
    (recognized_state c.state = false →
      context_to_step_result c =
        Except.error "ValueError: could not convert context state to step status") := by
  refine ⟨?_, ?_, ?_, fun h => step_result_of_unrecognized c h⟩ <;>
    intro h <;>
    rw [step_result_of_recognized c (by rw [h]; rfl), h] <;>
    rfl

/-- A concrete context for witnesses: Pending state, Python connector, no
credentials. -/
def exContext : ConnectorContext :=
  { state := ContextState.pending
    connector := { language := ConnectorLanguage.python, technical_name := "source-faker" }
    report_output_base := "manual/test"
    pipeline_name := "Test Pipeline"
    docker_hub_username := none
    docker_hub_password := none
    dagger_client := none
    dockerd_service := none }

/-- Witness for C2 at concrete inputs: a Successful context classifies to
Success, and the Pending context raises. -/
theorem context_to_step_result_classification_witness :
    context_to_step_result { exContext with state := ContextState.successful } =
      Except.ok (noOpStepRun { exContext with state := ContextState.successful }
        StepStatus.success) ∧
    context_to_step_result exContext =
      Except.error "ValueError: could not convert context state to step status" :=
  ⟨(context_to_step_result_classification _).1 rfl,
   (context_to_step_result_classification exContext).2.2.2 (by decide)⟩

/-! ### C3 -/

/-- No task-launch event is a report-save event. -/
theorem no_save_in_launches (invs : List Invocation) :
    (invs.map Event.taskLaunch).countP is_save = 0 := by
  rw [List.countP_eq_zero]
  intro e he
  rcases List.mem_map.mp he with ⟨inv, _, rfl⟩
  simp [is_save]

/-- C3: if the tasks complete but some WorkUnit ends in an unrecognized
terminal state, classification raises before the Report is constructed:
`run_report_complete_pipeline` returns the ValueError instead of a report, the
batch run propagates it, and no report-save event appears in the trace. -/
theorem bad_state_aborts_report (f : WorkFn) (pipeline_name : String)
    (concurrency : Nat) (args : List String) (first : ConnectorContext)
    (rest finished : List ConnectorContext)
    (hfin : tasks_result f pipeline_name concurrency args first rest = Except.ok finished)
    (hbad : ∃ c ∈ finished, recognized_state c.state = false) :
    run_report_complete_pipeline finished =
      Except.error "ValueError: could not convert context state to step status" ∧
    (run_connectors_pipelines (first :: rest) f pipeline_name concurrency args).1 =
      Except.error "ValueError: could not convert context state to step status" ∧
    ((run_connectors_pipelines (first :: rest) f pipeline_name concurrency args).2).countP
      is_save = 0 := by
  have hrep : run_report_complete_pipeline finished =
      Except.error "ValueError: could not convert context state to step status" := by
    rcases finished with _ | ⟨f0, t⟩
    · rcases hbad with ⟨c, hc, _⟩
      simp at hc
    · have hbad' : ∃ c ∈
          ({ f0 with pipeline_name := "Report upload " ++ f0.report_output_base } :: t),
          recognized_state c.state = false := by
        rcases hbad with ⟨c, hc, hb⟩
        rcases List.mem_cons.mp hc with rfl | hct
        · exact ⟨_, List.mem_cons_self _ _, hb⟩
        · exact ⟨c, List.mem_cons_of_mem _ hct, hb⟩
      simp [run_report_complete_pipeline, map_step_results_eq_error _ hbad']
  refine ⟨hrep, ?_, ?_⟩ <;>
    simp [run_connectors_pipelines, hfin, hrep, List.countP_append, List.countP_cons,
      is_save, no_save_in_launches]

/-- A work function for concrete runs: it leaves every context Pending. -/
def pendingPipeline : WorkFn := fun _ _ _ => Except.ok ContextState.pending

/-- The context list the fan-out produces when `pendingPipeline` runs on the
batch `[exContext]` under pipeline name `test` and concurrency 5. -/
def exFinishedPending : List ConnectorContext :=
  [{ exContext with
      state := ContextState.pending
      dagger_client := some "test - source-faker"
      dockerd_service := some { secrets := none } }]

/-- Witness for C3 at a concrete batch: one context left Pending aborts the
report and the run, with no save event. -/
theorem bad_state_aborts_report_witness :
    run_report_complete_pipeline exFinishedPending =
      Except.error "ValueError: could not convert context state to step status" ∧
    (run_connectors_pipelines [exContext] pendingPipeline "test" 5 []).1 =
      Except.error "ValueError: could not convert context state to step status" ∧
    ((run_connectors_pipelines [exContext] pendingPipeline "test" 5 []).2).countP
      is_save = 0 :=
  bad_state_aborts_report pendingPipeline "test" 5 [] exContext [] exFinishedPending rfl
    ⟨_, List.mem_singleton_self _, rfl⟩

/-! ### C4 -/

/-- C4: when every context ends in a recognized state, the saved report holds
one step result per context, in exactly the input order: the i-th step result
carries the classification of the i-th input context's state and references a
context with the i-th input context's state and connector. -/
theorem report_results_follow_input_order (contexts : List ConnectorContext)
    (hne : contexts ≠ [])
    (hrec : ∀ c ∈ contexts, recognized_state c.state = true) :
    ∃ cs r, run_report_complete_pipeline contexts = Except.ok (cs, some r) ∧
      r.steps_results.length = contexts.length ∧
      r.steps_results.map StepResult.status =
        contexts.map (fun c => terminal_status c.state) ∧
      r.steps_results.map (fun sr => sr.context.state) =
        contexts.map ConnectorContext.state ∧
      r.steps_results.map (fun sr => sr.context.connector) =
        contexts.map ConnectorContext.connector := by
  rcases contexts with _ | ⟨c0, t⟩
  · exact absurd rfl hne
  · have hrec' : ∀ c ∈
        ({ c0 with pipeline_name := "Report upload " ++ c0.report_output_base } :: t),
        recognized_state c.state = true := by
      intro c hc
      rcases List.mem_cons.mp hc with rfl | hct
      · exact hrec c0 (List.mem_cons_self _ _)
      · exact hrec c (List.mem_cons_of_mem _ hct)
    have hrun : run_report_complete_pipeline (c0 :: t) =
        Except.ok ({ c0 with pipeline_name := "Report upload " ++ c0.report_output_base } :: t,
          some { name := "Report upload " ++ c0.report_output_base
                 pipeline_context :=
                   { c0 with pipeline_name := "Report upload " ++ c0.report_output_base }
                 steps_results :=
                   ({ c0 with pipeline_name := "Report upload " ++ c0.report_output_base } :: t).map
                     fun c => noOpStepRun c (terminal_status c.state)
                 filename := "complete" }) := by
      simp [run_report_complete_pipeline, map_step_results_eq_ok _ hrec']
    exact ⟨_, _, hrun, by simp, by simp [noOpStepRun, List.map_map],
      by simp [noOpStepRun, List.map_map], by simp [noOpStepRun, List.map_map]⟩

/-- A three-context batch with states Successful, Error, Failure. -/
def exBatch : List ConnectorContext :=
  [{ exContext with state := ContextState.successful },
   { exContext with
      state := ContextState.error
      connector := { language := ConnectorLanguage.java, technical_name := "source-java" } },
   { exContext with state := ContextState.failure }]

/-- Witness for C4 at a concrete three-context batch. -/
theorem report_results_follow_input_order_witness :
    exBatch ≠ [] ∧
    (∀ c ∈ exBatch, recognized_state c.state = true) ∧
    ∃ cs r, run_report_complete_pipeline exBatch = Except.ok (cs, some r) ∧
      r.steps_results.length = exBatch.length ∧
      r.steps_results.map StepResult.status =
        exBatch.map (fun c => terminal_status c.state) ∧
      r.steps_results.map (fun sr => sr.context.state) =
        exBatch.map ConnectorContext.state ∧
      r.steps_results.map (fun sr => sr.context.connector) =
        exBatch.map ConnectorContext.connector :=
  ⟨by decide, by decide,
    report_results_follow_input_order exBatch (by decide) (by decide)⟩

/-! ### Trace-shape lemmas -/

/-- Trace when some task raises: service start and the launches, nothing else
(in particular no service stop). -/
theorem run_trace_of_tasks_error (first : ConnectorContext) (rest : List ConnectorContext)
    (f : WorkFn) (pipeline_name : String) (concurrency : Nat) (args : List String)
    (e : String)
    (htr : tasks_result f pipeline_name concurrency args first rest = Except.error e) :
    run_connectors_pipelines (first :: rest) f pipeline_name concurrency args =
      (Except.error e,
       Event.serviceStart (dockerServiceConfig first) ::
         (scheduled_invocations pipeline_name concurrency args first rest).map
           Event.taskLaunch) := by
  simp only [run_connectors_pipelines]
  rw [htr]

/-- Trace when the tasks finish but classification raises: start, the launches,
then the service stop; no report save. -/
theorem run_trace_of_report_error (first : ConnectorContext)
    (rest finished : List ConnectorContext) (f : WorkFn) (pipeline_name : String)
    (concurrency : Nat) (args : List String) (e : String)
    (htr : tasks_result f pipeline_name concurrency args first rest = Except.ok finished)
    (hrep : run_report_complete_pipeline finished = Except.error e) :
    run_connectors_pipelines (first :: rest) f pipeline_name concurrency args =
      (Except.error e,
       (Event.serviceStart (dockerServiceConfig first) ::
         (scheduled_invocations pipeline_name concurrency args first rest).map
           Event.taskLaunch) ++ [Event.serviceStop]) := by
  simp only [run_connectors_pipelines, htr, hrep]

/-- Trace of a fully successful run: start, the launches, the stop, then the
report save events. -/
theorem run_trace_of_ok (first : ConnectorContext)
    (rest finished cs : List ConnectorContext) (oreport : Option Report) (f : WorkFn)
    (pipeline_name : String) (concurrency : Nat) (args : List String)
    (htr : tasks_result f pipeline_name concurrency args first rest = Except.ok finished)
    (hrep : run_report_complete_pipeline finished = Except.ok (cs, oreport)) :
    run_connectors_pipelines (first :: rest) f pipeline_name concurrency args =
      (Except.ok cs,
       (Event.serviceStart (dockerServiceConfig first) ::
         (scheduled_invocations pipeline_name concurrency args first rest).map
           Event.taskLaunch) ++ [Event.serviceStop] ++
         (oreport.map Event.reportSave).toList) := by
  simp only [run_connectors_pipelines, htr, hrep]

/-- No task-launch event is a service-start event. -/
theorem no_start_in_launches (invs : List Invocation) :
    (invs.map Event.taskLaunch).countP is_start = 0 := by
  rw [List.countP_eq_zero]
  intro e he
  rcases List.mem_map.mp he with ⟨inv, _, rfl⟩
  simp [is_start]

/-- No task-launch event is a service-stop event. -/
theorem no_stop_in_launches (invs : List Invocation) :
    (invs.map Event.taskLaunch).countP is_stop = 0 := by
  rw [List.countP_eq_zero]
  intro e he
  rcases List.mem_map.mp he with ⟨inv, _, rfl⟩
  simp [is_stop]

/-- Projecting the launch events back out of a list of task launches. -/
theorem filterMap_launch_of_map (invs : List Invocation) :
    invs.filterMap (launch_of ∘ Event.taskLaunch) = invs := by
  induction invs with
  | nil => rfl
  | cons i t ih => simp [launch_of, Function.comp, ih]

/-- The launches recorded in the trace are exactly the scheduled invocations,
on every exit path. -/
theorem run_launches_eq (first : ConnectorContext) (rest : List ConnectorContext)
    (f : WorkFn) (pipeline_name : String) (concurrency : Nat) (args : List String) :
    ((run_connectors_pipelines (first :: rest) f pipeline_name concurrency args).2).filterMap
      launch_of = scheduled_invocations pipeline_name concurrency args first rest := by
  cases htr : tasks_result f pipeline_name concurrency args first rest with
  | error e =>
    rw [run_trace_of_tasks_error first rest f pipeline_name concurrency args e htr]
    simp [launch_of, filterMap_launch_of_map]
  | ok finished =>
    cases hrep : run_report_complete_pipeline finished with
    | error e =>
      rw [run_trace_of_report_error first rest finished f pipeline_name concurrency args e
        htr hrep]
      simp [launch_of, filterMap_launch_of_map]
    | ok p =>
      rw [run_trace_of_ok first rest finished p.1 p.2 f pipeline_name concurrency args htr
        (by rw [hrep])]
      rcases p with ⟨cs, _ | r⟩ <;> simp [launch_of, filterMap_launch_of_map]

/-! ### C5 -/

/-- C5: every scheduled launch receives the gate `gate_for` selects from the
context's language; Java — the one registered class — always gets its dedicated
capacity-1 semaphore, every unregistered language gets the shared default
semaphore of the caller's capacity, and a dedicated gate is never the shared
gate, so no class is ever supplied both. -/
theorem gate_selection_spec (first : ConnectorContext) (rest : List ConnectorContext)
    (pipeline_name : String) (concurrency : Nat) (args : List String) :
    (scheduled_invocations pipeline_name concurrency args first rest).map Invocation.gate =
      (first :: rest).map
        (fun c => gate_for (Gate.shared concurrency) c.connector.language) ∧
    CONNECTOR_LANGUAGE_TO_FORCED_CONCURRENCY_MAPPING ConnectorLanguage.java =
      some (Gate.forced ConnectorLanguage.java 1) ∧
    gate_for (Gate.shared concurrency) ConnectorLanguage.java =
      Gate.forced ConnectorLanguage.java 1 ∧
    (∀ lang, CONNECTOR_LANGUAGE_TO_FORCED_CONCURRENCY_MAPPING lang = none →
      gate_for (Gate.shared concurrency) lang = Gate.shared concurrency) ∧
    (∀ cap₁ cap₂, Gate.forced ConnectorLanguage.java cap₁ ≠ Gate.shared cap₂) := by
  refine ⟨?_, rfl, rfl, ?_, ?_⟩
  · simp only [scheduled_invocations, List.map_map]
    rfl
  · intro lang h
    simp [gate_for, h]
  · intro cap₁ cap₂ h
    exact Gate.noConfusion h

/-- A Java-connector context. -/
def exJavaContext : ConnectorContext :=
  { exContext with
      connector := { language := ConnectorLanguage.java, technical_name := "source-java" } }

/-- Witness for C5 on a concrete two-context batch: the Python context gets the
shared capacity-5 semaphore, the Java context its dedicated capacity-1
semaphore, and the two gates are distinct. -/
theorem gate_selection_spec_witness :
    (scheduled_invocations "test" 5 [] exContext [exJavaContext]).map Invocation.gate =
      [Gate.shared 5, Gate.forced ConnectorLanguage.java 1] ∧
    Gate.forced ConnectorLanguage.java 1 ≠ Gate.shared 5 :=
  ⟨(gate_selection_spec exContext [exJavaContext] "test" 5 []).1.trans (by decide),
   (gate_selection_spec exContext [exJavaContext] "test" 5 []).2.2.2.2 1 5⟩

/-! ### C6 -/

/-- C6: for every non-empty batch, on every exit path, the trace starts with
the service-start event, there is no other start event, and every task launch
comes strictly after the start. -/
theorem service_start_precedes_launches (first : ConnectorContext)
    (rest : List ConnectorContext) (f : WorkFn) (pipeline_name : String)
    (concurrency : Nat) (args : List String) :
    ∃ t, (run_connectors_pipelines (first :: rest) f pipeline_name concurrency args).2 =
        Event.serviceStart (dockerServiceConfig first) :: t ∧
      t.countP is_start = 0 ∧
      t.filterMap launch_of =
        scheduled_invocations pipeline_name concurrency args first rest := by
  cases htr : tasks_result f pipeline_name concurrency args first rest with
  | error e =>
    rw [run_trace_of_tasks_error first rest f pipeline_name concurrency args e htr]
    refine ⟨_, rfl, no_start_in_launches _, ?_⟩
    rw [List.filterMap_map]
    exact filterMap_launch_of_map _
  | ok finished =>
    cases hrep : run_report_complete_pipeline finished with
    | error e =>
      rw [run_trace_of_report_error first rest finished f pipeline_name concurrency args e
        htr hrep]
      refine ⟨_, rfl, ?_, ?_⟩
      · simp [List.countP_append, no_start_in_launches, is_start]
      · simp [List.filterMap_append, filterMap_launch_of_map, launch_of]
    | ok p =>
      rw [run_trace_of_ok first rest finished p.1 p.2 f pipeline_name concurrency args htr
        (by rw [hrep])]
      rcases p with ⟨cs, _ | r⟩ <;> refine ⟨_, rfl, ?_, ?_⟩ <;>
        simp [List.countP_append, List.filterMap_append, no_start_in_launches,
          filterMap_launch_of_map, is_start, launch_of]

/-! ### C9 -/

/-- C9: the run records exactly one launch per context, in input order; the
i-th launch passes the i-th context (as prepared: dagger client and service
handle set), the gate `gate_for` chooses from that context's language, and the
caller's extra positional arguments, identical for every launch. -/
theorem one_launch_per_unit_with_args (first : ConnectorContext)
    (rest : List ConnectorContext) (f : WorkFn) (pipeline_name : String)
    (concurrency : Nat) (args : List String) :
    ((run_connectors_pipelines (first :: rest) f pipeline_name concurrency args).2).filterMap
        launch_of = scheduled_invocations pipeline_name concurrency args first rest ∧
    (scheduled_invocations pipeline_name concurrency args first rest).length =
      (first :: rest).length ∧
    (scheduled_invocations pipeline_name concurrency args first rest).map
        Invocation.extra_args = List.replicate (first :: rest).length args ∧
    (scheduled_invocations pipeline_name concurrency args first rest).map
        Invocation.context =
      (first :: rest).map (prepare_context pipeline_name (dockerServiceConfig first)) ∧
    (scheduled_invocations pipeline_name concurrency args first rest).map
        Invocation.gate =
      (first :: rest).map
        (fun c => gate_for (Gate.shared concurrency) c.connector.language) := by
  refine ⟨run_launches_eq first rest f pipeline_name concurrency args, ?_, ?_, ?_, ?_⟩
  · simp [scheduled_invocations]
  · rw [List.eq_replicate_iff]
    constructor
    · simp [scheduled_invocations]
    · intro b hb
      rcases List.mem_map.mp hb with ⟨inv, hinv, rfl⟩
      rcases List.mem_map.mp hinv with ⟨c, _, rfl⟩
      rfl
  · simp only [scheduled_invocations, List.map_map]
    rfl
  · simp only [scheduled_invocations, List.map_map]
    rfl

/-! ### C7 -/

/-- A work function whose task raises. -/
def failPipeline : WorkFn := fun _ _ _ => Except.error "RuntimeError: boom"

/-- C7 counterexample: when a task raises, the error propagates out of the
task group and line 137 (`await dockerd_service.stop()`) is never reached —
the stop count on this concrete run is 0, not 1. -/
theorem stop_skipped_on_task_failure :
    (run_connectors_pipelines [exContext] failPipeline "test" 5 []).1 =
      Except.error "RuntimeError: boom" ∧
    ((run_connectors_pipelines [exContext] failPipeline "test" 5 []).2).countP
      is_stop = 0 :=
  ⟨rfl, rfl⟩

/-- C7 (amended): the stop event occurs exactly once when every task completes
without raising (even if classification later raises) and zero times when some
task raises; and the trace always begins with the service start followed by all
task launches, so any stop comes only after the join of the launched tasks. -/
theorem stop_once_after_join_on_success (first : ConnectorContext)
    (rest : List ConnectorContext) (f : WorkFn) (pipeline_name : String)
    (concurrency : Nat) (args : List String) :
    ((run_connectors_pipelines (first :: rest) f pipeline_name concurrency args).2).countP
        is_stop =
      (match tasks_result f pipeline_name concurrency args first rest with
        | Except.ok _ => 1
        | Except.error _ => 0) ∧
    ∃ t, (run_connectors_pipelines (first :: rest) f pipeline_name concurrency args).2 =
        (Event.serviceStart (dockerServiceConfig first) ::
          (scheduled_invocations pipeline_name concurrency args first rest).map
            Event.taskLaunch) ++ t := by
  cases htr : tasks_result f pipeline_name concurrency args first rest with
  | error e =>
    rw [run_trace_of_tasks_error first rest f pipeline_name concurrency args e htr]
    exact ⟨by simp [List.countP_cons, is_stop, no_stop_in_launches], ⟨[], by simp⟩⟩
  | ok finished =>
    cases hrep : run_report_complete_pipeline finished with
    | error e =>
      rw [run_trace_of_report_error first rest finished f pipeline_name concurrency args e
        htr hrep]
      exact ⟨by simp [List.countP_append, List.countP_cons, is_stop, no_stop_in_launches],
        ⟨[Event.serviceStop], by simp⟩⟩
    | ok p =>
      rcases p with ⟨cs, orep⟩
      rw [run_trace_of_ok first rest finished cs orep f pipeline_name concurrency args htr hrep]
      refine ⟨?_, ⟨[Event.serviceStop] ++ (orep.map Event.reportSave).toList, by simp⟩⟩
      rcases orep with _ | r <;>
        simp [List.countP_append, List.countP_cons, is_stop, is_save, no_stop_in_launches]

/-! ### C10 -/

/-- C10: the service configuration is decided by the first context alone: the
run's first event is the service start configured by `dockerServiceConfig` of
the first context; secrets are set exactly when both of the first context's
credentials are truthy; and replacing every other context (and the work
function, name, capacity and args) leaves the start event unchanged. -/
theorem service_secrets_from_first_context (first : ConnectorContext)
    (rest rest₂ : List ConnectorContext) (f g : WorkFn) (pipeline_name pn₂ : String)
    (concurrency conc₂ : Nat) (args args₂ : List String) :
    ((run_connectors_pipelines (first :: rest) f pipeline_name concurrency args).2).head? =
      some (Event.serviceStart (dockerServiceConfig first)) ∧
    (dockerServiceConfig first).secrets.isSome =
      (truthy first.docker_hub_username && truthy first.docker_hub_password) ∧
    ((run_connectors_pipelines (first :: rest) f pipeline_name concurrency args).2).head? =
      ((run_connectors_pipelines (first :: rest₂) g pn₂ conc₂ args₂).2).head? := by
  have hhead : ∀ (r : List ConnectorContext) (w : WorkFn) (pn : String) (cc : Nat)
      (a : List String),
      ((run_connectors_pipelines (first :: r) w pn cc a).2).head? =
        some (Event.serviceStart (dockerServiceConfig first)) := by
    intro r w pn cc a
    cases htr : tasks_result w pn cc a first r with
    | error e =>
      rw [run_trace_of_tasks_error first r w pn cc a e htr]
      rfl
    | ok finished =>
      cases hrep : run_report_complete_pipeline finished with
      | error e =>
        rw [run_trace_of_report_error first r finished w pn cc a e htr hrep]
        rfl
      | ok p =>
        rw [run_trace_of_ok first r finished p.1 p.2 w pn cc a htr (by rw [hrep])]
        rfl
  refine ⟨hhead rest f pipeline_name concurrency args, ?_,
    (hhead rest f pipeline_name concurrency args).trans
      (hhead rest₂ g pn₂ conc₂ args₂).symm⟩
  unfold dockerServiceConfig
  cases hu : truthy first.docker_hub_username && truthy first.docker_hub_password <;>
    simp [hu]

/-! ### C8 -/

/-- A successful `run_task` only rewrites the context's state. -/
theorem run_task_ok (f : WorkFn) (g : Gate) (a : List String) (c c' : ConnectorContext)
    (h : run_task f g a c = Except.ok c') :
    ∃ s, c' = { c with state := s } := by
  unfold run_task at h
  cases hf : f c (gate_for g c.connector.language) a with
  | error e =>
    rw [hf] at h
    simp [Except.map] at h
  | ok s =>
    rw [hf] at h
    simp only [Except.map, Except.ok.injEq] at h
    exact ⟨s, h.symm⟩

/-- On the success path the fan-out only rewrites states: any projection that
ignores the state is preserved, contextwise and in order. -/
theorem run_tasks_preserves {α : Type} (f : WorkFn) (g : Gate) (a : List String)
    (p : ConnectorContext → α)
    (hp : ∀ c s, p { c with state := s } = p c) :
    ∀ l cs, run_tasks f g a l = Except.ok cs → cs.map p = l.map p := by
  intro l
  induction l with
  | nil =>
    intro cs h
    simp only [run_tasks, Except.ok.injEq] at h
    rw [← h]
  | cons c t ih =>
    intro cs h
    simp only [run_tasks] at h
    cases hc : run_task f g a c with
    | error e =>
      simp only [hc] at h
      exact Except.noConfusion h
    | ok c' =>
      simp only [hc] at h
      cases ht : run_tasks f g a t with
      | error e =>
        simp only [ht] at h
        exact Except.noConfusion h
      | ok cs' =>
        simp only [ht, Except.ok.injEq] at h
        rw [← h]
        rcases run_task_ok f g a c c' hc with ⟨s, rfl⟩
        simp [hp, ih cs' ht]

/-- The context list a fully successful one-context run returns: the state is
rewritten by the work function, and in addition the dagger client, the service
handle and (for the first context) the pipeline name have been rewritten by the
core itself. -/
def exRunOutput : List ConnectorContext :=
  [{ exContext with
      state := ContextState.successful
      pipeline_name := "Report upload manual/test"
      dagger_client := some "test - source-faker"
      dockerd_service := some { secrets := none } }]

/-- C8 counterexample: the core does not leave every non-state facet
unchanged — on a concrete run, the returned context's `dagger_client`,
`dockerd_service` and `pipeline_name` all differ from the input's. -/
theorem core_mutates_more_than_state :
    (run_connectors_pipelines [exContext] okPipeline "test" 5 []).1 =
      Except.ok exRunOutput ∧
    exContext.dagger_client = none ∧
    (exRunOutput.map fun c => c.dagger_client) = [some "test - source-faker"] ∧
    exContext.dockerd_service = none ∧
    (exRunOutput.map fun c => c.dockerd_service) = [some { secrets := none }] ∧
    exContext.pipeline_name = "Test Pipeline" ∧
    (exRunOutput.map fun c => c.pipeline_name) = ["Report upload manual/test"] :=
  ⟨rfl, rfl, rfl, rfl, rfl, rfl, rfl⟩

/-- C8 (amended): besides the terminal state (rewritten by the caller's work
function), the core writes exactly three facets: every context's dagger client
label and shared-service handle, set before launch, and the first context's
pipeline name, repurposed for the report. The connector, the report output
prefix and both credential fields of every context come back unchanged, in
order. -/
theorem core_mutation_frame (first : ConnectorContext)
    (rest cs : List ConnectorContext) (f : WorkFn) (pipeline_name : String)
    (concurrency : Nat) (args : List String)
    (h : (run_connectors_pipelines (first :: rest) f pipeline_name concurrency args).1 =
      Except.ok cs) :
    (cs.map fun c => c.connector) = ((first :: rest).map fun c => c.connector) ∧
    (cs.map fun c => c.report_output_base) =
      ((first :: rest).map fun c => c.report_output_base) ∧
    (cs.map fun c => c.docker_hub_username) =
      ((first :: rest).map fun c => c.docker_hub_username) ∧
    (cs.map fun c => c.docker_hub_password) =
      ((first :: rest).map fun c => c.docker_hub_password) ∧
    (cs.map fun c => c.dagger_client) =
      ((first :: rest).map fun c =>
        some (pipeline_name ++ " - " ++ c.connector.technical_name)) ∧
    (cs.map fun c => c.dockerd_service) =
      List.replicate (first :: rest).length (some (dockerServiceConfig first)) ∧
    (cs.map fun c => c.pipeline_name) =
      ("Report upload " ++ first.report_output_base) :: (rest.map fun c => c.pipeline_name) := by
  cases htr : tasks_result f pipeline_name concurrency args first rest with
  | error e =>
    rw [run_trace_of_tasks_error first rest f pipeline_name concurrency args e htr] at h
    exact absurd h (by simp)
  | ok finished =>
    cases hrep : run_report_complete_pipeline finished with
    | error e =>
      rw [run_trace_of_report_error first rest finished f pipeline_name concurrency args e
        htr hrep] at h
      exact absurd h (by simp)
    | ok p =>
      rcases p with ⟨cs', orep⟩
      rw [run_trace_of_ok first rest finished cs' orep f pipeline_name concurrency args
        htr hrep] at h
      simp only [Except.ok.injEq] at h
      subst h
      have hpres : ∀ {α : Type} (p : ConnectorContext → α),
          (∀ c s, p { c with state := s } = p c) →
          finished.map p =
            (first :: rest).map
              (fun c => p (prepare_context pipeline_name (dockerServiceConfig first) c)) := by
        intro α p hp
        have hx := run_tasks_preserves f (Gate.shared concurrency) args p hp
          ((first :: rest).map (prepare_context pipeline_name (dockerServiceConfig first)))
          finished htr
        rw [List.map_map] at hx
        exact hx
      rcases finished with _ | ⟨f0, t'⟩
      · have hz := hpres (fun _ => true) (fun _ _ => rfl)
        simp at hz
      · have hcs : cs' =
            { f0 with pipeline_name := "Report upload " ++ f0.report_output_base } :: t' := by
          have hrep' := hrep
          simp only [run_report_complete_pipeline] at hrep'
          cases hms : map_step_results
              ({ f0 with pipeline_name := "Report upload " ++ f0.report_output_base } :: t') with
          | error e =>
            simp only [hms] at hrep'
            exact Except.noConfusion hrep'
          | ok rs =>
            simp only [hms, Except.ok.injEq, Prod.mk.injEq] at hrep'
            exact hrep'.1.symm
        subst hcs
        have hconn := hpres (fun c => c.connector) (fun _ _ => rfl)
        have hbase := hpres (fun c => c.report_output_base) (fun _ _ => rfl)
        have huser := hpres (fun c => c.docker_hub_username) (fun _ _ => rfl)
        have hpass := hpres (fun c => c.docker_hub_password) (fun _ _ => rfl)
        have hdag := hpres (fun c => c.dagger_client) (fun _ _ => rfl)
        have hsvc := hpres (fun c => c.dockerd_service) (fun _ _ => rfl)
        have hpn := hpres (fun c => c.pipeline_name) (fun _ _ => rfl)
        refine ⟨hconn, hbase, huser, hpass, hdag, ?_, ?_⟩
        · refine hsvc.trans ?_
          rw [show ((first :: rest).map fun c =>
              (prepare_context pipeline_name (dockerServiceConfig first) c).dockerd_service) =
              ((first :: rest).map fun _ => some (dockerServiceConfig first)) from rfl]
          simp [List.replicate_succ]
        · simp only [List.map_cons, List.cons.injEq] at hbase hpn ⊢
          exact ⟨by rw [hbase.1]; rfl, hpn.2⟩

/-- Witness for C8 at a concrete one-context run. -/
theorem core_mutation_frame_witness :
    ((run_connectors_pipelines [exContext] okPipeline "test" 5 []).1 =
      Except.ok exRunOutput) ∧
    ((exRunOutput.map fun c => c.connector) = ([exContext].map fun c => c.connector) ∧
    (exRunOutput.map fun c => c.report_output_base) =
      ([exContext].map fun c => c.report_output_base) ∧
    (exRunOutput.map fun c => c.docker_hub_username) =
      ([exContext].map fun c => c.docker_hub_username) ∧
    (exRunOutput.map fun c => c.docker_hub_password) =
      ([exContext].map fun c => c.docker_hub_password) ∧
    (exRunOutput.map fun c => c.dagger_client) =
      ([exContext].map fun c => some ("test" ++ " - " ++ c.connector.technical_name)) ∧
    (exRunOutput.map fun c => c.dockerd_service) =
      List.replicate [exContext].length (some (dockerServiceConfig exContext)) ∧
    (exRunOutput.map fun c => c.pipeline_name) =
      ("Report upload " ++ exContext.report_output_base) ::
        ([].map fun c => ConnectorContext.pipeline_name c)) :=
  ⟨rfl, core_mutation_frame exContext [] exRunOutput okPipeline "test" 5 [] rfl⟩

end AirbytePipeline
